import Mathlib

/-!
Verification of the braces compilation-cache and matching facade
(`index.js`).

The facade is shallowly embedded: JavaScript option bags become
association lists of string keys to primitive values, the two
module-level stores (`cache` and `makeReCache`) become an explicit
state record threaded through each operation, and the external
collaborators (the escaping utility and the Pattern Engine, which live
outside this layer) are a structure of function parameters, so every
theorem quantifies over their behavior.  Object identity of compiled
regular expressions, which JavaScript provides by allocation, is
modelled by tagging each freshly built regex with a counter drawn from
the state.
-/

set_option autoImplicit false

/-- A primitive JavaScript value as it may appear in an options bag. -/
inductive JSVal where
  | bool : Bool → JSVal
  | num : Int → JSVal
  | str : String → JSVal
deriving DecidableEq, Repr

/-- JavaScript `String(v)` coercion on option values, used when
building cache keys. -/
def JSVal.toStr : JSVal → String
  | .bool true => "true"
  | .bool false => "false"
  | .num n => toString n
  | .str s => s

/-- An options object: own properties in enumeration order. -/
abbrev OptionsObj : Type := List (String × JSVal)

/-- First-match lookup in an association list, i.e. reading a property
of a JavaScript object whose entries are listed in enumeration
order. -/
def assocGet {α : Type} : List (String × α) → String → Option α
  | [], _ => none
  | (k1, v) :: rest, k => if k1 = k then some v else assocGet rest k

/-- Property assignment: overwrite the entry in place if the key is
present, otherwise append it (JavaScript object assignment keeps the
original enumeration position of an existing key). -/
def assocSet {α : Type} : List (String × α) → String → α → List (String × α)
  | [], k, v => [(k, v)]
  | (k1, v1) :: rest, k, v =>
    if k1 = k then (k, v) :: rest else (k1, v1) :: assocSet rest k v

/-- Own-property read on an options object. -/
def getOwn (o : OptionsObj) (k : String) : Option JSVal :=
  assocGet o k

/-- A compiled output: `braces.compile` produces either a single
regex-compatible string or, in expand mode, an array of literal
strings (`typeof compiled.output === 'string'` distinguishes them). -/
inductive Output where
  | str : String → Output
  | strs : List String → Output
deriving DecidableEq, Repr

/-- The object returned by the Pattern Engine's `compile`; only its
`output` field is ever read or written by this layer. -/
structure Compiled where
  output : Output

/-- A compiled regular expression object: an allocation identity plus
the `test` behavior the engine gave it. -/
structure Regex where
  id : Nat
  test : String → Bool

/-- A value stored in the module-level `cache` object, which holds
compiled outputs (stored by `braces()`) and matcher functions (stored
by `braces.isMatch`) in the same store. -/
inductive CacheVal where
  | out : Output → CacheVal
  | fn : (String → Bool) → CacheVal

/-- JavaScript truthiness of a stored cache value, as tested by
`if (cache[str])`: a function is truthy, an array is truthy even when
empty, a string is truthy exactly when non-empty. -/
def CacheVal.truthy : CacheVal → Bool
  | .out (.str s) => !(s == "")
  | .out (.strs _) => true
  | .fn _ => true

/-- `cache[k]` used as a condition: the entry when it is present and
truthy, `none` otherwise. -/
def truthyGet (m : List (String × CacheVal)) (k : String) : Option CacheVal :=
  match assocGet m k with
  | some v => if v.truthy then some v else none
  | none => none

/-- The module-level mutable state: the shared `cache` store, the
`makeReCache` store, and the allocation counter modelling object
identity of freshly constructed regexes. -/
structure St where
  cache : List (String × CacheVal)
  makeReCache : List (String × Regex)
  nextId : Nat

/-- The state at module load: both stores empty. -/
def st0 : St := { cache := [], makeReCache := [], nextId := 0 }

/-- The external collaborators consumed by the facade: the escaping
utility pair and the Pattern Engine (`new Braces(options)` with
`parse`, `compile` and `makeRe`).  `parse` and `compile` receive the
constructor options first and the per-call options second, as in the
source; `makeRe` receives the (already defaulted) constructor options.
The AST type is opaque to this layer. -/
structure Externals (AST : Type) where
  escape : String → Option OptionsObj → String
  unescape : String → Option OptionsObj → String
  parse : Option OptionsObj → String → Option OptionsObj → AST
  compile : Option OptionsObj → AST → Option OptionsObj → Compiled
  makeRe : OptionsObj → String → String → Bool

/-- An error surfaced by the facade: a thrown `Error` with a message,
or the `TypeError` raised by calling a non-function value. -/
inductive JSError where
  | thrown : String → JSError
  | typeError : JSError
deriving Repr

/-- The `candidates` argument of `braces.match`: a single string or an
array of strings. -/
inductive Candidates where
  | one : String → Candidates
  | many : List String → Candidates

/-- Modelled from the spec: `utils.arrayify` (external utility, not in
this layer's source) coerces a value into an ordered sequence,
promoting a single scalar to a one-element sequence. -/
def arrayify : Candidates → List String
  | .one s => [s]
  | .many l => l

/-- Modelled from the spec: `utils.extend` (external utility, not in
this layer's source) is a shallow merge where later objects win; each
own property of the second object is assigned onto the first. -/
def extendObj (base more : OptionsObj) : OptionsObj :=
  more.foldl (fun acc p => assocSet acc p.1 p.2) base

/-- The merged options `braces.expand` hands to `braces.compile`:
`utils.extend({unescape: true}, options, {expand: true, makeRe: false})`,
with an absent caller options object contributing nothing. -/
def expandOpts (options : Option OptionsObj) : OptionsObj :=
  extendObj (extendObj [("unescape", JSVal.bool true)] (options.getD []))
    [("expand", JSVal.bool true), ("makeRe", JSVal.bool false)]

/-- The cache key built by `braces.isMatch` and `braces.makeRe`: the
pattern, then `;name=value` for every own property of the options
object in enumeration order; an absent options object contributes
nothing. -/
def cacheKey (pattern : String) (options : Option OptionsObj) : String :=
  match options with
  | none => pattern
  | some o => o.foldl (fun k p => k ++ ";" ++ p.1 ++ "=" ++ p.2.toStr) pattern

/-- `pattern.split('\\').join('')`: the pattern with every backslash
character removed. -/
def removeBackslashes (s : String) : String :=
  String.mk (s.toList.filter (fun c => !(c == '\\')))

/-- `braces.compile(str, options)`: escape, parse, compile, then
unescape the output (mapping over it when it is an array). -/
def compileFn {AST : Type} (ext : Externals AST) (str : String)
    (options : Option OptionsObj) : Compiled :=
  let ast := ext.parse options (ext.escape str options) options
  let compiled := ext.compile options ast options
  match compiled.output with
  | .str out => { compiled with output := Output.str (ext.unescape out options) }
  | .strs outs =>
    { compiled with
      output := Output.strs (outs.map (fun x => ext.unescape x options)) }

/-- `braces.compile` as a state-threading operation: its body performs
no access to `cache` or `makeReCache`, so the state passes through
untouched. -/
def compileSt {AST : Type} (ext : Externals AST) (str : String)
    (options : Option OptionsObj) (s : St) : Compiled × St :=
  (compileFn ext str options, s)

/-- The top-level `braces(str, options)`: if `cache[str]` is truthy,
return it; otherwise compile, store `result.output` under the pattern
text alone, and return that output. -/
def bracesFn {AST : Type} (ext : Externals AST) (str : String)
    (options : Option OptionsObj) (s : St) : CacheVal × St :=
  match truthyGet s.cache str with
  | some v => (v, s)
  | none =>
    let c := compileSt ext str options s
    (CacheVal.out c.1.output,
      { c.2 with cache := assocSet c.2.cache str (CacheVal.out c.1.output) })

/-- A sequence of calls to `braces(p, o)` with the given option
objects, threading the state; returns the values in call order. -/
def bracesCalls {AST : Type} (ext : Externals AST) (p : String) :
    List (Option OptionsObj) → St → List CacheVal × St
  | [], s => ([], s)
  | o :: rest, s =>
    let r := bracesFn ext p o s
    let rs := bracesCalls ext p rest r.2
    (r.1 :: rs.1, rs.2)

/-- `braces.expand(str, options)`: merge the forced options, return
`[str]` for patterns of length at most two, otherwise delegate to
`braces.compile` and return its output. -/
def expandFn {AST : Type} (ext : Externals AST) (str : String)
    (options : Option OptionsObj) (s : St) : Output × St :=
  let opts := expandOpts options
  if str = "" ∨ str.length ≤ 2 then (Output.strs [str], s)
  else
    let c := compileSt ext str (some opts) s
    (c.1.output, c.2)

/-- `braces.makeRe(pattern, options)`: build the cache key from the
raw options, default the options, serve `makeReCache[key]` only when
`options.cache !== false`, otherwise build a fresh regex via the
engine, store it under the key unconditionally, and return it. -/
def makeReFn {AST : Type} (ext : Externals AST) (pattern : String)
    (options : Option OptionsObj) (s : St) : Regex × St :=
  let key := cacheKey pattern options
  let opts := options.getD []
  let cached : Option Regex :=
    if getOwn opts "cache" = some (JSVal.bool false) then none
    else assocGet s.makeReCache key
  match cached with
  | some r => (r, s)
  | none =>
    let regex : Regex := { id := s.nextId, test := ext.makeRe opts pattern }
    (regex,
      { s with
        makeReCache := assocSet s.makeReCache key regex,
        nextId := s.nextId + 1 })

/-- `braces.matcher(pattern, options)`: build (or fetch) a regex and
return the closure testing a string against it. -/
def matcherFn {AST : Type} (ext : Externals AST) (pattern : String)
    (options : Option OptionsObj) (s : St) : (String → Bool) × St :=
  let r := makeReFn ext pattern options s
  (fun str => r.1.test str, r.2)

/-- `braces.isMatch(str, pattern, options)`: build the cache key, and
on a `hasOwnProperty` hit in the shared `cache` store call the stored
value on `str` (a `TypeError` when that value is not a function);
on a miss build a matcher, store it under the key, and apply it. -/
def isMatchFn {AST : Type} (ext : Externals AST) (str pattern : String)
    (options : Option OptionsObj) (s : St) : Except JSError (Bool × St) :=
  let key := cacheKey pattern options
  match assocGet s.cache key with
  | some (CacheVal.fn f) => Except.ok (f str, s)
  | some (CacheVal.out _) => Except.error JSError.typeError
  | none =>
    let m := matcherFn ext pattern options s
    Except.ok (m.1 str, { m.2 with cache := assocSet m.2.cache key (CacheVal.fn m.1) })

/-- `braces.match(arr, pattern, options)`: coerce the candidates,
default the options, build a matcher, filter the candidates in order,
and apply the empty-result policy (`failglob` throws, then
`nonull`/`nullglob` substitute the backslash-stripped pattern,
otherwise return the empty result). -/
def matchFn {AST : Type} (ext : Externals AST) (cands : Candidates)
    (pattern : String) (options : Option OptionsObj) (s : St) :
    Except JSError (List String × St) :=
  let arr := arrayify cands
  let opts := options.getD []
  let ms := matcherFn ext pattern (some opts) s
  let res := arr.filter ms.1
  if res = [] then
    if getOwn opts "failglob" = some (JSVal.bool true) then
      Except.error (JSError.thrown ("no matches found for \"" ++ pattern ++ "\""))
    else if getOwn opts "nonull" = some (JSVal.bool true) ∨
        getOwn opts "nullglob" = some (JSVal.bool true) then
      Except.ok ([removeBackslashes pattern], ms.2)
    else
      Except.ok (res, ms.2)
  else
    Except.ok (res, ms.2)

/-- The state carried inside a successful facade result, with a
default for the error case. -/
def resState (dflt : St) : Except JSError (Bool × St) → St
  | .ok r => r.2
  | .error _ => dflt

/-- A sample engine over a trivial AST type: escaping is the identity,
compilation returns the string stored under the "v" option (defaulting
to "out"), and a compiled regex tests a string for equality with the
pattern. -/
def extSample : Externals Unit where
  escape := fun s _ => s
  unescape := fun s _ => s
  parse := fun _ _ _ => ()
  compile := fun _ _ o =>
    { output := Output.str (match getOwn (o.getD []) "v" with
        | some (JSVal.str t) => t
        | _ => "out") }
  makeRe := fun _ p => fun str => str == p

/-- An engine whose compiled output is always the empty string. -/
def extEmptyOut : Externals Unit where
  escape := fun s _ => s
  unescape := fun s _ => s
  parse := fun _ _ _ => ()
  compile := fun _ _ _ => { output := Output.str "" }
  makeRe := fun _ p => fun str => str == p

/-- An engine whose unescape step appends a marker exactly when the
options request unescaping, making the effective value of the
`unescape` option observable in compiled output. -/
def extMark : Externals Unit where
  escape := fun s _ => s
  unescape := fun s o =>
    if getOwn (o.getD []) "unescape" = some (JSVal.bool true) then s ++ "!" else s
  parse := fun _ _ _ => ()
  compile := fun _ _ _ => { output := Output.str "X" }
  makeRe := fun _ p => fun str => str == p

/-- A second engine differing from `extSample` everywhere, used to
show that cached paths never consult the engine. -/
def extOther : Externals Bool where
  escape := fun s _ => s ++ "?"
  unescape := fun s _ => s ++ "?"
  parse := fun _ _ _ => true
  compile := fun _ _ _ => { output := Output.strs ["other"] }
  makeRe := fun _ _ => fun _ => true

/-- The compiled output carried by a cache value, when it is one (used
to state facts about `braces()` results without comparing stored
functions). -/
def CacheVal.outputOf : CacheVal → Option Output
  | .out o => some o
  | .fn _ => none

theorem assocGet_assocSet_self {α : Type} (m : List (String × α)) (k : String) (v : α) :
    assocGet (assocSet m k v) k = some v := by
  induction m with
  | nil => simp [assocSet, assocGet]
  | cons p rest ih =>
    obtain ⟨k1, v1⟩ := p
    by_cases h : k1 = k
    · simp [assocSet, assocGet, h]
    · simp [assocSet, assocGet, h, ih]

theorem assocGet_assocSet_ne {α : Type} (m : List (String × α)) (k1 k2 : String) (v : α)
    (h : k1 ≠ k2) : assocGet (assocSet m k1 v) k2 = assocGet m k2 := by
  induction m with
  | nil => simp [assocSet, assocGet, h]
  | cons p rest ih =>
    obtain ⟨ka, va⟩ := p
    by_cases h2 : ka = k1
    · subst h2
      simp [assocSet, assocGet, h]
    · simp only [assocSet, if_neg h2, assocGet, ih]

theorem truthyGet_assocSet_self (m : List (String × CacheVal)) (k : String) (v : CacheVal) :
    truthyGet (assocSet m k v) k = if v.truthy then some v else none := by
  simp [truthyGet, assocGet_assocSet_self]

theorem assocGet_none_of_cons {α : Type} (kp : String) (vp : α) (rest : List (String × α))
    (k : String) (h : assocGet ((kp, vp) :: rest) k = none) :
    kp ≠ k ∧ assocGet rest k = none := by
  by_cases hk : kp = k
  · simp [assocGet, hk] at h
  · rw [show assocGet ((kp, vp) :: rest) k = if kp = k then some vp else assocGet rest k from rfl,
      if_neg hk] at h
    exact ⟨hk, h⟩

theorem getOwn_extendObj_of_none (base o : OptionsObj) (k : String)
    (h : assocGet o k = none) : assocGet (extendObj base o) k = assocGet base k := by
  induction o generalizing base with
  | nil => rfl
  | cons p rest ih =>
    obtain ⟨kp, vp⟩ := p
    obtain ⟨hk, hrest⟩ := assocGet_none_of_cons kp vp rest k h
    show assocGet (extendObj (assocSet base kp vp) rest) k = _
    rw [ih _ hrest, assocGet_assocSet_ne _ _ _ _ hk]

/-- C4: for every pattern of length at most 2 (including the empty
string) and any options, `expand` returns exactly the one-element
sequence containing the pattern, for every possible Pattern Engine and
with the state untouched — i.e. without invoking the engine at all. -/
theorem c4_expand_short_circuit {AST : Type} (ext : Externals AST) (p : String)
    (opts : Option OptionsObj) (s : St) (h : p.length ≤ 2) :
    expandFn ext p opts s = (Output.strs [p], s) := by
  simp [expandFn, h]

theorem c4_expand_short_circuit_witness :
    ("ab".length ≤ 2) ∧ expandFn extSample "ab" none st0 = (Output.strs ["ab"], st0) :=
  ⟨by decide, c4_expand_short_circuit extSample "ab" none st0 (by decide)⟩

/-- C8: `compile` is pure with respect to the stores: a call leaves
the shared compilation/matcher store (`cache`), the regexp store
(`makeReCache`) and the allocation counter exactly as they were, for
every engine, pattern and options. -/
theorem c8_compile_pure {AST : Type} (ext : Externals AST) (p : String)
    (opts : Option OptionsObj) (s : St) :
    (compileSt ext p opts s).2.cache = s.cache ∧
    (compileSt ext p opts s).2.makeReCache = s.makeReCache ∧
    (compileSt ext p opts s).2.nextId = s.nextId :=
  ⟨rfl, rfl, rfl⟩

/-- C1 (counterexample): the Compilation Cache lookup tests truthiness,
so when the output computed under the first option set is the empty
string, the second call does not return the value computed and cached
under the first options; it recompiles under its own options and
returns a different output. -/
theorem c1_counterexample :
    (bracesFn extSample "p" (some [("v", JSVal.str "")]) st0).1.outputOf =
      some (Output.str "") ∧
    (bracesFn extSample "p" (some [("v", JSVal.str "B")])
        (bracesFn extSample "p" (some [("v", JSVal.str "")]) st0).2).1.outputOf =
      some (Output.str "B") ∧
    Output.str "B" ≠ Output.str "" :=
  ⟨rfl, rfl, by decide⟩

/-- C1 (amended): provided the pattern has no truthy entry in the
Compilation Cache yet and the output computed under the first option
set is truthy, `braces(p, optsA)` computes and caches that output, and
a following `braces(p, optsB)` returns exactly the cached value with
the state unchanged, for every second option set — the cache is
options-blind. -/
theorem c1_cache_options_blind {AST : Type} (ext : Externals AST) (p : String)
    (oA oB : Option OptionsObj) (s : St)
    (hmiss : truthyGet s.cache p = none)
    (htruthy : (CacheVal.out (compileFn ext p oA).output).truthy = true) :
    (bracesFn ext p oA s).1 = CacheVal.out (compileFn ext p oA).output ∧
    bracesFn ext p oB (bracesFn ext p oA s).2 =
      ((bracesFn ext p oA s).1, (bracesFn ext p oA s).2) := by
  have h1 : bracesFn ext p oA s =
      (CacheVal.out (compileFn ext p oA).output,
        { s with cache := assocSet s.cache p (CacheVal.out (compileFn ext p oA).output) }) := by
    simp [bracesFn, hmiss, compileSt]
  constructor
  · rw [h1]
  · rw [h1]
    simp [bracesFn, truthyGet_assocSet_self, htruthy]

theorem c1_cache_options_blind_witness :
    truthyGet st0.cache "q" = none ∧
    (CacheVal.out (compileFn extSample "q" (some [("v", JSVal.str "A")])).output).truthy = true ∧
    ((bracesFn extSample "q" (some [("v", JSVal.str "A")]) st0).1 =
        CacheVal.out (compileFn extSample "q" (some [("v", JSVal.str "A")])).output ∧
      bracesFn extSample "q" none (bracesFn extSample "q" (some [("v", JSVal.str "A")]) st0).2 =
        ((bracesFn extSample "q" (some [("v", JSVal.str "A")]) st0).1,
          (bracesFn extSample "q" (some [("v", JSVal.str "A")]) st0).2)) :=
  ⟨rfl, rfl, c1_cache_options_blind extSample "q" (some [("v", JSVal.str "A")]) none st0 rfl rfl⟩

/-- C10: when every compilation of a pattern yields a falsy output
(such as the empty string) and the pattern has no truthy cache entry,
a sequence of `braces` calls never serves a stored entry: every call
recompiles, each using the options of that very call. -/
theorem c10_falsy_output_recompiles {AST : Type} (ext : Externals AST) (p : String)
    (optsList : List (Option OptionsObj)) (s : St)
    (hfalsy : ∀ o, (CacheVal.out (compileFn ext p o).output).truthy = false)
    (hmiss : truthyGet s.cache p = none) :
    (bracesCalls ext p optsList s).1 =
      optsList.map (fun o => CacheVal.out (compileFn ext p o).output) := by
  induction optsList generalizing s with
  | nil => rfl
  | cons o rest ih =>
    have h1 : bracesFn ext p o s =
        (CacheVal.out (compileFn ext p o).output,
          { s with cache := assocSet s.cache p (CacheVal.out (compileFn ext p o).output) }) := by
      simp [bracesFn, hmiss, compileSt]
    have h2 : truthyGet (assocSet s.cache p (CacheVal.out (compileFn ext p o).output)) p
        = none := by
      simp [truthyGet_assocSet_self, hfalsy o]
    simp [bracesCalls, h1,
      ih { s with cache := assocSet s.cache p (CacheVal.out (compileFn ext p o).output) } h2]

theorem c10_falsy_output_recompiles_witness :
    (bracesCalls extEmptyOut "p10" [none, some [("x", JSVal.bool true)]] st0).1 =
      [CacheVal.out (compileFn extEmptyOut "p10" none).output,
        CacheVal.out (compileFn extEmptyOut "p10" (some [("x", JSVal.bool true)])).output] :=
  c10_falsy_output_recompiles extEmptyOut "p10" [none, some [("x", JSVal.bool true)]] st0
    (fun _ => rfl) rfl

/-- C3 (counterexample): `expand` merges `{unescape: true}` *before*
the caller options, so a caller-supplied `unescape` is honored, not
forced: with `{unescape: false}` the merged options carry
`unescape = false`, and an engine whose unescaping is observable
produces a different output than it does when `unescape` stays at its
default — refuting that `expand` forces `unescape` to true regardless
of caller-supplied values. -/
theorem c3_counterexample :
    getOwn (expandOpts (some [("unescape", JSVal.bool false)])) "unescape" =
      some (JSVal.bool false) ∧
    (expandFn extMark "abcd" (some [("unescape", JSVal.bool false)]) st0).1 =
      Output.str "X" ∧
    (expandFn extMark "abcd" none st0).1 = Output.str "X!" :=
  ⟨rfl, rfl, rfl⟩

/-- Unfolding of the merged options built by `expand`. -/
theorem expandOpts_eq (opts : Option OptionsObj) :
    expandOpts opts =
      assocSet (assocSet (extendObj [("unescape", JSVal.bool true)] (opts.getD []))
        "expand" (JSVal.bool true)) "makeRe" (JSVal.bool false) := rfl

/-- C3 (amended): for patterns longer than two characters, `expand`
delegates to `compile` with merged options in which `expand` is forced
to true and `makeRe` forced to false regardless of caller-supplied
values for those keys, while `unescape` is supplied as a default
`true` that a caller-supplied `unescape` value overrides. -/
theorem c3_expand_forced_options {AST : Type} (ext : Externals AST) (p : String)
    (opts : Option OptionsObj) (s : St) (h : 2 < p.length) :
    getOwn (expandOpts opts) "expand" = some (JSVal.bool true) ∧
    getOwn (expandOpts opts) "makeRe" = some (JSVal.bool false) ∧
    (getOwn (opts.getD []) "unescape" = none →
      getOwn (expandOpts opts) "unescape" = some (JSVal.bool true)) ∧
    expandFn ext p opts s = ((compileFn ext p (some (expandOpts opts))).output, s) := by
  have hne : ¬(p = "" ∨ p.length ≤ 2) := by
    rintro (rfl | h2)
    · simp at h
    · omega
  refine ⟨?_, ?_, ?_, ?_⟩
  · rw [expandOpts_eq, getOwn, assocGet_assocSet_ne _ _ _ _ (by decide),
      assocGet_assocSet_self]
  · rw [expandOpts_eq, getOwn, assocGet_assocSet_self]
  · intro hnone
    rw [expandOpts_eq, getOwn, assocGet_assocSet_ne _ _ _ _ (by decide),
      assocGet_assocSet_ne _ _ _ _ (by decide),
      getOwn_extendObj_of_none _ _ _ hnone]
    rfl
  · simp [expandFn, compileSt, hne]

theorem c3_expand_forced_options_witness :
    getOwn (expandOpts (some [("x", JSVal.bool true)])) "expand" = some (JSVal.bool true) ∧
    getOwn (expandOpts (some [("x", JSVal.bool true)])) "makeRe" = some (JSVal.bool false) ∧
    (getOwn ((some [("x", JSVal.bool true)] : Option OptionsObj).getD []) "unescape" = none →
      getOwn (expandOpts (some [("x", JSVal.bool true)])) "unescape" =
        some (JSVal.bool true)) ∧
    expandFn extSample "abcd" (some [("x", JSVal.bool true)]) st0 =
      ((compileFn extSample "abcd" (some (expandOpts (some [("x", JSVal.bool true)])))).output,
        st0) :=
  c3_expand_forced_options extSample "abcd" (some [("x", JSVal.bool true)]) st0 (by decide)

/-- C2: the source stores `braces()` outputs and `isMatch` predicates
in one and the same `cache` object, not in separate stores: after
`braces(p)` has cached a compiled output under the pattern text,
`isMatch(s, p)` with no options hits that entry, retrieves the
CompiledOutput instead of a predicate, and calling it raises a
TypeError instead of returning a boolean. -/
theorem c2_shared_store_type_error :
    isMatchFn extSample "x" "pc" none (bracesFn extSample "pc" none st0).2 =
      Except.error JSError.typeError := rfl

/-- C5: when the retained sequence is empty, `match` fails with an
error carrying the pattern text if `options.failglob === true`;
otherwise, if `options.nonull === true` or `options.nullglob === true`,
it returns the one-element sequence holding the pattern with every
backslash removed; otherwise it returns the empty sequence — three
mutually exclusive branches evaluated in that order, `failglob`
first. -/
theorem c5_match_empty_policy {AST : Type} (ext : Externals AST) (cands : Candidates)
    (pattern : String) (options : Option OptionsObj) (s : St) :
    ((arrayify cands).filter (matcherFn ext pattern (some (options.getD [])) s).1 = [] →
      (getOwn (options.getD []) "failglob" = some (JSVal.bool true) →
        matchFn ext cands pattern options s =
          Except.error (JSError.thrown ("no matches found for \"" ++ pattern ++ "\""))) ∧
      (getOwn (options.getD []) "failglob" ≠ some (JSVal.bool true) →
        (getOwn (options.getD []) "nonull" = some (JSVal.bool true) ∨
          getOwn (options.getD []) "nullglob" = some (JSVal.bool true)) →
        matchFn ext cands pattern options s =
          Except.ok ([removeBackslashes pattern],
            (matcherFn ext pattern (some (options.getD [])) s).2)) ∧
      (getOwn (options.getD []) "failglob" ≠ some (JSVal.bool true) →
        ¬(getOwn (options.getD []) "nonull" = some (JSVal.bool true) ∨
          getOwn (options.getD []) "nullglob" = some (JSVal.bool true)) →
        matchFn ext cands pattern options s =
          Except.ok ([], (matcherFn ext pattern (some (options.getD [])) s).2))) ∧
    ((arrayify cands).filter (matcherFn ext pattern (some (options.getD [])) s).1 ≠ [] →
      matchFn ext cands pattern options s =
        Except.ok ((arrayify cands).filter (matcherFn ext pattern (some (options.getD [])) s).1,
          (matcherFn ext pattern (some (options.getD [])) s).2)) := by
  constructor
  · intro hEmpty
    refine ⟨?_, ?_, ?_⟩
    · intro hf
      simp [matchFn, hEmpty, hf]
    · intro hf hn
      rcases hn with hn | hn <;> simp [matchFn, hEmpty, hf, hn]
    · intro hf hn
      rw [not_or] at hn
      simp [matchFn, hEmpty, hf, hn.1, hn.2]
  · intro hne
    simp [matchFn, hne]

theorem c5_match_empty_policy_witness :
    ((arrayify (Candidates.many ["a"])).filter
        (matcherFn extSample "zz" (some [("failglob", JSVal.bool true)]) st0).1 = []) ∧
    (getOwn [("failglob", JSVal.bool true)] "failglob" = some (JSVal.bool true)) ∧
    matchFn extSample (Candidates.many ["a"]) "zz" (some [("failglob", JSVal.bool true)]) st0 =
      Except.error (JSError.thrown "no matches found for \"zz\"") :=
  ⟨by decide, by decide,
    ((c5_match_empty_policy extSample (Candidates.many ["a"]) "zz"
      (some [("failglob", JSVal.bool true)]) st0).1 (by decide)).1 (by decide)⟩

/-- C6: `makeRe` with `options.cache === false` skips the read path
entirely — it returns a freshly allocated regex distinct from every
previously stored one — yet still writes the fresh regex under the
CacheKey; a subsequent call that yields the same CacheKey but whose
`cache` option is not `=== false` returns exactly the stored instance
and leaves the state untouched.  (The hypothesis on identifiers is the
allocation invariant: every stored regex was allocated below the
counter.) -/
theorem c6_makeRe_read_gated_write_always {AST : Type} (ext : Externals AST)
    (p p2 : String) (oA oB : Option OptionsObj) (s : St)
    (hA : getOwn (oA.getD []) "cache" = some (JSVal.bool false))
    (hKey : cacheKey p2 oB = cacheKey p oA)
    (hB : getOwn (oB.getD []) "cache" ≠ some (JSVal.bool false))
    (hInv : ∀ k r, (k, r) ∈ s.makeReCache → r.id < s.nextId) :
    (makeReFn ext p oA s).1.id = s.nextId ∧
    (∀ k r, (k, r) ∈ s.makeReCache → (makeReFn ext p oA s).1 ≠ r) ∧
    assocGet (makeReFn ext p oA s).2.makeReCache (cacheKey p oA) =
      some (makeReFn ext p oA s).1 ∧
    makeReFn ext p2 oB (makeReFn ext p oA s).2 =
      ((makeReFn ext p oA s).1, (makeReFn ext p oA s).2) := by
  have h1 : makeReFn ext p oA s =
      ({ id := s.nextId, test := ext.makeRe (oA.getD []) p },
        { s with
          makeReCache := assocSet s.makeReCache (cacheKey p oA)
            { id := s.nextId, test := ext.makeRe (oA.getD []) p },
          nextId := s.nextId + 1 }) := by
    simp [makeReFn, hA]
  refine ⟨?_, ?_, ?_, ?_⟩
  · rw [h1]
  · intro k r hmem
    rw [h1]
    intro heq
    have hid := congrArg Regex.id heq
    have hlt := hInv k r hmem
    simp at hid
    omega
  · rw [h1]
    exact assocGet_assocSet_self _ _ _
  · rw [h1]
    simp [makeReFn, hB, hKey, assocGet_assocSet_self]

theorem c6_makeRe_read_gated_write_always_witness :
    (getOwn ((some [("cache", JSVal.bool false)] : Option OptionsObj).getD []) "cache" =
      some (JSVal.bool false)) ∧
    (cacheKey "p6" (some [("cache", JSVal.str "false")]) =
      cacheKey "p6" (some [("cache", JSVal.bool false)])) ∧
    (getOwn ((some [("cache", JSVal.str "false")] : Option OptionsObj).getD []) "cache" ≠
      some (JSVal.bool false)) ∧
    makeReFn extSample "p6" (some [("cache", JSVal.str "false")])
        (makeReFn extSample "p6" (some [("cache", JSVal.bool false)]) st0).2 =
      ((makeReFn extSample "p6" (some [("cache", JSVal.bool false)]) st0).1,
        (makeReFn extSample "p6" (some [("cache", JSVal.bool false)]) st0).2) :=
  ⟨rfl, rfl, by decide,
    (c6_makeRe_read_gated_write_always extSample "p6" "p6"
      (some [("cache", JSVal.bool false)]) (some [("cache", JSVal.str "false")]) st0
      rfl rfl (by decide) (by simp [st0])).2.2.2⟩

/-- C7: `isMatch` is idempotent: whenever a call returns a boolean,
the matcher store afterwards holds a predicate under the CacheKey, and
a repeated call with identical arguments — run against *any* engine,
so without invoking the Pattern Engine — returns the very same boolean
and state. -/
theorem c7_isMatch_idempotent {AST : Type} (ext : Externals AST) (s p : String)
    (o : Option OptionsObj) (st : St)
    (h : (isMatchFn ext s p o st).isOk = true) :
    (∃ f, assocGet (resState st (isMatchFn ext s p o st)).cache (cacheKey p o) =
      some (CacheVal.fn f)) ∧
    (∀ (AST2 : Type) (ext2 : Externals AST2),
      isMatchFn ext2 s p o (resState st (isMatchFn ext s p o st)) =
        isMatchFn ext s p o st) := by
  cases hget : assocGet st.cache (cacheKey p o) with
  | none =>
    constructor
    · refine ⟨(matcherFn ext p o st).1, ?_⟩
      simp [isMatchFn, hget, resState, assocGet_assocSet_self]
    · intro AST2 ext2
      simp [isMatchFn, hget, resState, assocGet_assocSet_self]
  | some v =>
    cases v with
    | out o2 =>
      simp [isMatchFn, hget] at h
      exact absurd h (by decide)
    | fn f =>
      constructor
      · exact ⟨f, by simp [isMatchFn, hget, resState]⟩
      · intro AST2 ext2
        simp [isMatchFn, hget, resState]

theorem c7_isMatch_idempotent_witness :
    ((isMatchFn extSample "x" "p7" none st0).isOk = true) ∧
    isMatchFn extOther "x" "p7" none (resState st0 (isMatchFn extSample "x" "p7" none st0)) =
      isMatchFn extSample "x" "p7" none st0 :=
  ⟨rfl, (c7_isMatch_idempotent extSample "x" "p7" none st0 rfl).2 Bool extOther⟩

/-- C9: when the retained sequence is non-empty, `match` returns
exactly the in-order filter of the coerced candidates by the predicate
built from the pattern: the result is a subsequence of the input,
every returned element is an input element satisfying the predicate,
and every input element satisfying the predicate is returned. -/
theorem c9_match_filters {AST : Type} (ext : Externals AST) (cands : Candidates)
    (pattern : String) (options : Option OptionsObj) (s : St)
    (hne : (arrayify cands).filter
      (matcherFn ext pattern (some (options.getD [])) s).1 ≠ []) :
    matchFn ext cands pattern options s =
      Except.ok ((arrayify cands).filter (matcherFn ext pattern (some (options.getD [])) s).1,
        (matcherFn ext pattern (some (options.getD [])) s).2) ∧
    ((arrayify cands).filter
      (matcherFn ext pattern (some (options.getD [])) s).1).Sublist (arrayify cands) ∧
    (∀ x ∈ (arrayify cands).filter (matcherFn ext pattern (some (options.getD [])) s).1,
      x ∈ arrayify cands ∧ (matcherFn ext pattern (some (options.getD [])) s).1 x = true) ∧
    (∀ x ∈ arrayify cands, (matcherFn ext pattern (some (options.getD [])) s).1 x = true →
      x ∈ (arrayify cands).filter (matcherFn ext pattern (some (options.getD [])) s).1) := by
  refine ⟨?_, List.filter_sublist _, ?_, ?_⟩
  · simp [matchFn, hne]
  · intro x hx
    exact ⟨List.mem_of_mem_filter hx, List.of_mem_filter hx⟩
  · intro x hx hpx
    exact List.mem_filter.mpr ⟨hx, hpx⟩

theorem c9_match_filters_witness :
    ((arrayify (Candidates.many ["p9", "x"])).filter
        (matcherFn extSample "p9" (some []) st0).1 ≠ []) ∧
    matchFn extSample (Candidates.many ["p9", "x"]) "p9" none st0 =
      Except.ok (["p9"], (matcherFn extSample "p9" (some []) st0).2) :=
  ⟨by decide,
    (c9_match_filters extSample (Candidates.many ["p9", "x"]) "p9" none st0 (by decide)).1⟩
